import Mathlib

/-!
Verification of the scalar adaptive Kalman filter
(`adaptive_kalman_filter_scalar_tiny_plot.ipynb`).

The notebook implements, over machine floats, a scalar Kalman filter coupled
with a measurement-noise-covariance estimator.  We embed the closed-form
arithmetic over `ℚ` (exact arithmetic): every definition below mirrors one
cell or line of the notebook.
-/

namespace AKF

/-- The system model coefficients `F, H, Q` set in the parameter cell
(`F, H, Q, R = 0.5, 2, 4, 10`; `R` is the true noise variance owned by the
external measurement source, not by the filter). -/
structure Params where
  F : ℚ
  H : ℚ
  Q : ℚ

/-- `Mopi = 1/H` (precomputation cell). -/
def Mopi (p : Params) : ℚ := 1 / p.H

/-- `A1 = 1` (precomputation cell). -/
def A1 : ℚ := 1

/-- `B1 = -F*Mopi` (precomputation cell). -/
def B1 (p : Params) : ℚ := -p.F * Mopi p

/-- `B2 = Mopi` (precomputation cell). -/
def B2 (p : Params) : ℚ := Mopi p

/-- `kronA = A1**2` (precomputation cell). -/
def kronA : ℚ := A1 ^ 2

/-- `kronB = B1**2 + B2**2` (precomputation cell). -/
def kronB (p : Params) : ℚ := B1 p ^ 2 + B2 p ^ 2

/-- `S = np.copy(kronB)` (precomputation cell). -/
def S (p : Params) : ℚ := kronB p

/-- `CW = kronA*Q` (precomputation cell). -/
def CW (p : Params) : ℚ := kronA * p.Q

/-- `noise_covariance_estimation(y_new, y_old, L)`: the notebook reads the
loop counter `k` as a global; here it is an explicit argument.  Returns the
pair `((L-CW)/S, L)` of candidate estimate and updated running mean. -/
def noise_covariance_estimation (p : Params) (k : ℕ) (y_new y_old L : ℚ) :
    ℚ × ℚ :=
  let Z := Mopi p * (y_new - p.F * y_old)
  let L' := L * ((k : ℚ) - 1) / (k : ℚ) + Z * Z / (k : ℚ)
  ((L' - CW p) / S p, L')

/-- `state_estimation(x_post, P_post)`: the notebook reads `ynew` and `R_est`
as globals; here they are explicit arguments.  Returns `(x_post, P_post)`. -/
def state_estimation (p : Params) (R_est ynew x_post P_post : ℚ) : ℚ × ℚ :=
  let x_pre := p.F * x_post
  let P_pre := p.F * P_post * p.F + p.Q
  let K := P_pre * p.H / (p.H * P_pre * p.H + R_est)
  let x_post' := x_pre + K * (ynew - p.H * x_pre)
  let IKH := 1 - K * p.H
  let P_post' := IKH * P_pre * IKH + K * R_est * K
  (x_post', P_post')

/-- `K = P_pre*H/(H*P_pre*H+R_est)` — the gain line of `state_estimation`,
as a standalone function of the predicted covariance. -/
def Kgain (p : Params) (R_est P_pre : ℚ) : ℚ :=
  P_pre * p.H / (p.H * P_pre * p.H + R_est)

/-- `P_post = IKH*P_pre*IKH + K*R_est*K` — the Joseph-form covariance line
of `state_estimation`, as a standalone function of the predicted
covariance. -/
def josephP (p : Params) (R_est P_pre : ℚ) : ℚ :=
  let K := Kgain p R_est P_pre
  let IKH := 1 - K * p.H
  IKH * P_pre * IKH + K * R_est * K

/-- The mutable filter variables of the main loop:
`x_post, P_post, R_est, L`. -/
structure FilterState where
  x_post : ℚ
  P_post : ℚ
  R_est : ℚ
  L : ℚ

/-- One iteration of the main loop at counter `k`, given the fresh
measurement `ynew` and the previous measurement `yold` (`yold` is unread
when `k = 0`, matching the notebook where `yold` is still unassigned then).
Returns the new filter state together with the value stored in
`R_est_history[k]`. -/
def loopBody (p : Params) (k : ℕ) (ynew yold : ℚ) (s : FilterState) :
    FilterState × ℚ :=
  let upd :=
    if k > 0 then
      let res := noise_covariance_estimation p k ynew yold s.L
      (if res.1 > 0 then res.1 else s.R_est, res.2)
    else (s.R_est, s.L)
  let st := state_estimation p upd.1 ynew s.x_post s.P_post
  (⟨st.1, st.2, upd.1, upd.2⟩, upd.1)

/-- The main loop from counter `k` onwards over a list of measurements,
threading `yold` (`y_prev ← y_new` at the end of each iteration).  Returns
the final state and the list of recorded `R_est_history` values. -/
def runAux (p : Params) : List ℚ → ℕ → ℚ → FilterState → FilterState × List ℚ
  | [], _, _, s => (s, [])
  | y :: ys, k, yold, s =>
    let step := loopBody p k y yold s
    let rest := runAux p ys (k + 1) y step.1
    (rest.1, step.2 :: rest.2)

/-- `for k in range(T)` with the measurement sequence `ys`: the loop starts
at `k = 0` with `yold` unassigned (passed as a dummy `0`, unread at
`k = 0`). -/
def runFilter (p : Params) (ys : List ℚ) (s : FilterState) :
    FilterState × List ℚ :=
  runAux p ys 0 0 s

/-- Iterated calls of `noise_covariance_estimation` threading only the
running mean `L`, over a list of `(y_new, y_old)` pairs, with the counter
incremented between calls. -/
def noiseIter (p : Params) : List (ℚ × ℚ) → ℕ → ℚ → ℚ
  | [], _, L => L
  | (yn, yo) :: rest, k, L =>
    noiseIter p rest (k + 1) (noise_covariance_estimation p k yn yo L).2

/-- Sum of squared scaled innovations `Z_i² = (Mopi·(y_new_i − F·y_old_i))²`
over a list of `(y_new, y_old)` pairs. -/
def sumZsq (p : Params) : List (ℚ × ℚ) → ℚ
  | [] => 0
  | (yn, yo) :: rest =>
    Mopi p * (yn - p.F * yo) * (Mopi p * (yn - p.F * yo)) + sumZsq p rest

/-- The noise-estimator `update` operation exactly as the spec words it:
`Minv = 1/H`, `b1 = -F·Minv`, `b2 = Minv`, `S = b1² + b2²`, `CW = Q`,
`Z = Minv·(y_new − F·y_prev)`, `L ← L·(k−1)/k + Z²/k`,
candidate `(L − CW)/S`. -/
def noise_update_spec (p : Params) (k : ℕ) (y_new y_prev L : ℚ) : ℚ × ℚ :=
  let Minv := 1 / p.H
  let b1 := -p.F * Minv
  let b2 := Minv
  let Sspec := b1 ^ 2 + b2 ^ 2
  let CWspec := p.Q
  let Z := Minv * (y_new - p.F * y_prev)
  let L' := L * ((k : ℚ) - 1) / (k : ℚ) + Z ^ 2 / (k : ℚ)
  ((L' - CWspec) / Sspec, L')

/-- The state-estimator `step` operation exactly as the spec words it:
`x_pre = F·x_post_prev`, `P_pre = F²·P_post_prev + Q`,
`K = (P_pre·H)/(H²·P_pre + R_est)`, `x_post = x_pre + K·(y_new − H·x_pre)`,
`P_post = (1−K·H)²·P_pre + K²·R_est`. -/
def state_step_spec (p : Params) (R_est y_new x_post_prev P_post_prev : ℚ) :
    ℚ × ℚ :=
  let x_pre := p.F * x_post_prev
  let P_pre := p.F ^ 2 * P_post_prev + p.Q
  let K := P_pre * p.H / (p.H ^ 2 * P_pre + R_est)
  (x_pre + K * (y_new - p.H * x_pre),
   (1 - K * p.H) ^ 2 * P_pre + K ^ 2 * R_est)

/-- C3: `noise_covariance_estimation` computes exactly the spec formula:
scaled innovation `Z = (1/H)·(y_new − F·y_prev)`, running-mean update, and
candidate `(L' − CW)/S` with `S = b1² + b2²` and `CW = Q`. -/
theorem noise_covariance_estimation_eq_spec (p : Params) (k : ℕ)
    (y_new y_prev L : ℚ) :
    noise_covariance_estimation p k y_new y_prev L =
      noise_update_spec p k y_new y_prev L := by
  simp only [noise_covariance_estimation, noise_update_spec, S, kronB, CW,
    kronA, A1, B1, B2, Mopi, Prod.mk.injEq]
  constructor <;> ring

/-- C4: one `state_estimation` step returns exactly the predicted state,
predicted covariance, gain, corrected state and Joseph-form covariance of
the spec, whenever the gain denominator `H²·P_pre + R_est` is nonzero. -/
theorem state_estimation_eq_spec (p : Params) (R_est y_new x P : ℚ)
    (h : p.H ^ 2 * (p.F ^ 2 * P + p.Q) + R_est ≠ 0) :
    state_estimation p R_est y_new x P = state_step_spec p R_est y_new x P := by
  have hd : p.H * (p.F ^ 2 * P + p.Q) * p.H + R_est =
      p.H ^ 2 * (p.F ^ 2 * P + p.Q) + R_est := by ring
  simp only [state_estimation, state_step_spec, Prod.mk.injEq]
  rw [show p.F * P * p.F + p.Q = p.F ^ 2 * P + p.Q from by ring, hd]
  constructor <;> ring

/-- Witness for C4 at `F = 1/2, H = 2, Q = 4`, `R_est = 100`, `y = 3`,
`x = 1`, `P = 100`. -/
theorem state_estimation_eq_spec_witness :
    state_estimation ⟨1/2, 2, 4⟩ 100 3 1 100 =
      state_step_spec ⟨1/2, 2, 4⟩ 100 3 1 100 :=
  state_estimation_eq_spec ⟨1/2, 2, 4⟩ 100 3 1 100 (by norm_num)

/-- C5: the Joseph-form `P_post` returned by `state_estimation` is
non-negative whenever the previous `P_post` is ≥ 0, `Q ≥ 0` and
`R_est > 0`: it is a sum of non-negative terms. -/
theorem P_post_nonneg (p : Params) (R_est y_new x P : ℚ)
    (hP : 0 ≤ P) (hQ : 0 ≤ p.Q) (hR : 0 < R_est) :
    0 ≤ (state_estimation p R_est y_new x P).2 := by
  simp only [state_estimation]
  set P_pre := p.F * P * p.F + p.Q with hPpre
  have hpre : 0 ≤ P_pre := by
    have := mul_nonneg (mul_self_nonneg p.F) hP
    nlinarith
  set K := P_pre * p.H / (p.H * P_pre * p.H + R_est) with hK
  nlinarith [mul_nonneg (mul_self_nonneg (1 - K * p.H)) hpre,
    mul_nonneg (mul_self_nonneg K) hR.le]

/-- Witness for C5 at `F = 1/2, H = 2, Q = 4`, `R_est = 100`, `y = 3`,
`x = 1`, `P = 100`. -/
theorem P_post_nonneg_witness :
    0 ≤ (state_estimation ⟨1/2, 2, 4⟩ 100 3 1 100).2 :=
  P_post_nonneg ⟨1/2, 2, 4⟩ 100 3 1 100 (by norm_num) (by norm_num)
    (by norm_num)

/-- C8: with the gain of `state_estimation`, the Joseph-form covariance
`IKH·P_pre·IKH + K·R_est·K` equals the simplified form `(1 − K·H)·P_pre`
exactly, whenever the gain denominator is nonzero. -/
theorem josephP_eq_simplified (p : Params) (R_est P_pre : ℚ)
    (h : p.H ^ 2 * P_pre + R_est ≠ 0) :
    josephP p R_est P_pre = (1 - Kgain p R_est P_pre * p.H) * P_pre := by
  have hd : p.H * P_pre * p.H + R_est ≠ 0 := by
    rwa [show p.H * P_pre * p.H + R_est = p.H ^ 2 * P_pre + R_est from by ring]
  simp only [josephP, Kgain]
  field_simp
  ring

/-- Witness for C8 at `F = 1/2, H = 2, Q = 4`, `R_est = 100`,
`P_pre = 29`. -/
theorem josephP_eq_simplified_witness :
    josephP ⟨1/2, 2, 4⟩ 100 29 =
      (1 - Kgain ⟨1/2, 2, 4⟩ 100 29 * (2 : ℚ)) * 29 :=
  josephP_eq_simplified ⟨1/2, 2, 4⟩ 100 29 (by norm_num)

/-- C10: with `P_pre ≥ 0`, `R_est > 0` and `H ≠ 0`, the gain of
`state_estimation` satisfies `0 ≤ K·H < 1`, so the blending weight
`1 − K·H` lies in `(0, 1]`. -/
theorem gain_blend_bounds (p : Params) (R_est P_pre : ℚ)
    (hH : p.H ≠ 0) (hP : 0 ≤ P_pre) (hR : 0 < R_est) :
    0 ≤ Kgain p R_est P_pre * p.H ∧ Kgain p R_est P_pre * p.H < 1 := by
  have hnum : 0 ≤ P_pre * p.H * p.H := by
    have := mul_nonneg hP (mul_self_nonneg p.H)
    nlinarith
  have hD : 0 < p.H * P_pre * p.H + R_est := by nlinarith
  have hKH : Kgain p R_est P_pre * p.H =
      P_pre * p.H * p.H / (p.H * P_pre * p.H + R_est) := by
    simp only [Kgain]; ring
  rw [hKH]
  refine ⟨div_nonneg hnum hD.le, (div_lt_one hD).mpr ?_⟩
  nlinarith

/-- Witness for C10 at `F = 1/2, H = 2, Q = 4`, `R_est = 100`,
`P_pre = 29`. -/
theorem gain_blend_bounds_witness :
    0 ≤ Kgain ⟨1/2, 2, 4⟩ 100 29 * (2 : ℚ) ∧
      Kgain ⟨1/2, 2, 4⟩ 100 29 * (2 : ℚ) < 1 :=
  gain_blend_bounds ⟨1/2, 2, 4⟩ 100 29 (by norm_num) (by norm_num)
    (by norm_num)

/-- Generalized running-mean invariant: if the counter starts at `j + 1`
with `j ≥ 1`, iterating the estimator over `pairs` turns `L` into the
weighted mean `(L·j + Σ Z_i²) / (j + |pairs|)`. -/
theorem noiseIter_shift (p : Params) (pairs : List (ℚ × ℚ)) :
    ∀ (j : ℕ) (L : ℚ), 1 ≤ j →
      noiseIter p pairs (j + 1) L =
        (L * j + sumZsq p pairs) / ((j : ℚ) + pairs.length) := by
  induction pairs with
  | nil =>
    intro j L hj
    have hj0 : (j : ℚ) ≠ 0 := Nat.cast_ne_zero.mpr (by omega)
    simp only [noiseIter, sumZsq, List.length_nil, Nat.cast_zero, add_zero]
    field_simp
  | cons pr rest ih =>
    intro j L hj
    obtain ⟨yn, yo⟩ := pr
    have hj1 : ((j : ℚ) + 1) ≠ 0 := by positivity
    have hlen : ((j : ℚ) + 1 + (rest.length : ℚ)) ≠ 0 := by positivity
    simp only [noiseIter]
    rw [ih (j + 1) _ (by omega)]
    simp only [noise_covariance_estimation, sumZsq, List.length_cons]
    push_cast
    field_simp
    ring

/-- C2: starting the counter at 1, after `k` consecutive estimator calls on
pairs `(y_new_i, y_old_i)` the running mean `L` equals the exact arithmetic
mean `(Σ_{i=1}^{k} Z_i²)/k` of the squared scaled innovations, for every
initial `L`. -/
theorem noiseIter_eq_mean (p : Params) (pairs : List (ℚ × ℚ)) (L0 : ℚ)
    (h : pairs ≠ []) :
    noiseIter p pairs 1 L0 = sumZsq p pairs / (pairs.length : ℚ) := by
  obtain ⟨pr, rest, rfl⟩ := List.exists_cons_of_ne_nil h
  obtain ⟨yn, yo⟩ := pr
  have hlen : ((rest.length : ℚ) + 1) ≠ 0 := by positivity
  simp only [noiseIter]
  rw [noiseIter_shift p rest 1 _ le_rfl]
  simp only [noise_covariance_estimation, sumZsq, List.length_cons]
  push_cast
  field_simp
  ring_nf
  exact Or.inl trivial

/-- Witness for C2 on the two-element pair list `[(3, 1), (2, 5)]` with
initial `L = 7`. -/
theorem noiseIter_eq_mean_witness :
    ([((3 : ℚ), (1 : ℚ)), (2, 5)] : List (ℚ × ℚ)) ≠ [] ∧
      noiseIter ⟨1/2, 2, 4⟩ [(3, 1), (2, 5)] 1 7 =
        sumZsq ⟨1/2, 2, 4⟩ [(3, 1), (2, 5)] /
          ((([((3 : ℚ), (1 : ℚ)), (2, 5)] : List (ℚ × ℚ)).length : ℚ)) :=
  ⟨by simp, noiseIter_eq_mean ⟨1/2, 2, 4⟩ [(3, 1), (2, 5)] 7 (by simp)⟩

/-- One loop iteration keeps `R_est` strictly positive: the candidate is
accepted only when it is `> 0`, otherwise `R_est` is retained. -/
theorem loopBody_R_est_pos (p : Params) (k : ℕ) (ynew yold : ℚ)
    (s : FilterState) (h : 0 < s.R_est) :
    0 < (loopBody p k ynew yold s).1.R_est := by
  simp only [loopBody]
  split_ifs with hk hc
  · exact hc
  · exact h
  · exact h

/-- The value recorded in `R_est_history` at a step is exactly the
post-update `R_est` of that step. -/
theorem loopBody_recorded_eq (p : Params) (k : ℕ) (ynew yold : ℚ)
    (s : FilterState) :
    (loopBody p k ynew yold s).2 = (loopBody p k ynew yold s).1.R_est := rfl

/-- Helper for C1: positivity of `R_est` is preserved by the whole loop,
whatever the starting counter, previous measurement and measurement list. -/
theorem runAux_R_est_pos (p : Params) (ys : List ℚ) :
    ∀ (k : ℕ) (yold : ℚ) (s : FilterState), 0 < s.R_est →
      0 < (runAux p ys k yold s).1.R_est ∧
        ∀ r ∈ (runAux p ys k yold s).2, 0 < r := by
  induction ys with
  | nil =>
    intro k yold s h
    exact ⟨h, by intro r hr; simp [runAux] at hr⟩
  | cons y ys ih =>
    intro k yold s h
    have hb := loopBody_R_est_pos p k y yold s h
    obtain ⟨h1, h2⟩ := ih (k + 1) y (loopBody p k y yold s).1 hb
    refine ⟨by simpa [runAux] using h1, ?_⟩
    intro r hr
    simp only [runAux, List.mem_cons] at hr
    rcases hr with hr | hr
    · rw [hr, loopBody_recorded_eq]; exact hb
    · exact h2 r hr

/-- C1: starting from a positive initial `R_est`, for any measurement
sequence the final `R_est` and every recorded `R_est` value stay strictly
positive — the loop assigns the candidate only when it is `> 0`. -/
theorem R_est_never_nonpositive (p : Params) (ys : List ℚ) (s : FilterState)
    (h : 0 < s.R_est) :
    0 < (runFilter p ys s).1.R_est ∧ ∀ r ∈ (runFilter p ys s).2, 0 < r :=
  runAux_R_est_pos p ys 0 0 s h

/-- Witness for C1 on the measurement sequence `[1, 2, 3]` from the
initial state `x_post = 0, P_post = 100, R_est = 100, L = 0`. -/
theorem R_est_never_nonpositive_witness :
    0 < (runFilter ⟨1/2, 2, 4⟩ [1, 2, 3] ⟨0, 100, 100, 0⟩).1.R_est ∧
      ∀ r ∈ (runFilter ⟨1/2, 2, 4⟩ [1, 2, 3] ⟨0, 100, 100, 0⟩).2, 0 < r :=
  R_est_never_nonpositive ⟨1/2, 2, 4⟩ [1, 2, 3] ⟨0, 100, 100, 0⟩
    (by norm_num)

/-- C6: for `k > 0` the loop stores the freshly computed running mean in
`L` unconditionally, and when the candidate is rejected (`≤ 0`) the only
quantity retained is `R_est`. -/
theorem L_updated_unconditionally (p : Params) (k : ℕ) (ynew yold : ℚ)
    (s : FilterState) (hk : 0 < k) :
    (loopBody p k ynew yold s).1.L =
        (noise_covariance_estimation p k ynew yold s.L).2 ∧
      ((noise_covariance_estimation p k ynew yold s.L).1 ≤ 0 →
        (loopBody p k ynew yold s).1.R_est = s.R_est) := by
  constructor
  · simp only [loopBody, if_pos hk]
  · intro hrej
    simp only [loopBody, if_pos hk, if_neg (not_lt.mpr hrej)]

/-- Witness for C6 at `k = 1` with `y_new = y_old = 0` and `L = 0`: the
candidate is `(0 − 4)/S < 0`, so it is rejected while `L` is updated. -/
theorem L_updated_unconditionally_witness :
    (loopBody ⟨1/2, 2, 4⟩ 1 0 0 ⟨0, 100, 100, 0⟩).1.L =
        (noise_covariance_estimation ⟨1/2, 2, 4⟩ 1 0 0 0).2 ∧
      ((noise_covariance_estimation ⟨1/2, 2, 4⟩ 1 0 0 0).1 ≤ 0 →
        (loopBody ⟨1/2, 2, 4⟩ 1 0 0 ⟨0, 100, 100, 0⟩).1.R_est = 100) :=
  L_updated_unconditionally ⟨1/2, 2, 4⟩ 1 0 0 ⟨0, 100, 100, 0⟩ (by decide)

/-- C7: on a run `y1 :: y2 :: ys`, step 0 skips the noise update — its
recorded `R_est` is the caller-supplied prior, `R_est` and `L` are left
unchanged, while state estimation still runs with the prior; and at the
first `k > 0` step the order is noise update (acceptance rule), then
recording of the post-update `R_est`, then state estimation with that
`R_est`, then `y_prev ← y_new` (the continuation runs with `yold = y2`). -/
theorem step_ordering (p : Params) (s : FilterState) (y1 y2 : ℚ)
    (ys : List ℚ) :
    (runFilter p (y1 :: y2 :: ys) s).2.head? = some s.R_est ∧
    (loopBody p 0 y1 0 s).1.R_est = s.R_est ∧
    (loopBody p 0 y1 0 s).1.L = s.L ∧
    ((loopBody p 0 y1 0 s).1.x_post, (loopBody p 0 y1 0 s).1.P_post) =
      state_estimation p s.R_est y1 s.x_post s.P_post ∧
    (loopBody p 1 y2 y1 (loopBody p 0 y1 0 s).1).1.R_est =
      (if (noise_covariance_estimation p 1 y2 y1
            (loopBody p 0 y1 0 s).1.L).1 > 0
       then (noise_covariance_estimation p 1 y2 y1
            (loopBody p 0 y1 0 s).1.L).1
       else (loopBody p 0 y1 0 s).1.R_est) ∧
    (loopBody p 1 y2 y1 (loopBody p 0 y1 0 s).1).1.L =
      (noise_covariance_estimation p 1 y2 y1 (loopBody p 0 y1 0 s).1.L).2 ∧
    (loopBody p 1 y2 y1 (loopBody p 0 y1 0 s).1).2 =
      (loopBody p 1 y2 y1 (loopBody p 0 y1 0 s).1).1.R_est ∧
    ((loopBody p 1 y2 y1 (loopBody p 0 y1 0 s).1).1.x_post,
        (loopBody p 1 y2 y1 (loopBody p 0 y1 0 s).1).1.P_post) =
      state_estimation p
        (loopBody p 1 y2 y1 (loopBody p 0 y1 0 s).1).1.R_est y2
        (loopBody p 0 y1 0 s).1.x_post (loopBody p 0 y1 0 s).1.P_post ∧
    runFilter p (y1 :: y2 :: ys) s =
      ((runAux p ys 2 y2 (loopBody p 1 y2 y1 (loopBody p 0 y1 0 s).1).1).1,
        s.R_est :: (loopBody p 1 y2 y1 (loopBody p 0 y1 0 s).1).2 ::
          (runAux p ys 2 y2
            (loopBody p 1 y2 y1 (loopBody p 0 y1 0 s).1).1).2) :=
  ⟨rfl, rfl, rfl, rfl, rfl, rfl, rfl, rfl, rfl⟩

/-- The construction-time error taxonomy of the spec. -/
inductive ConstructionError where
  | InvalidModel
  | NonPositivePrior
deriving DecidableEq

/-- Modelled from the spec: the notebook contains no constructor — it
assigns `F, H, Q` and the priors as literal constants and performs no
validation — so the construction-time validation is missing from the
source and is modelled from the spec error taxonomy: `H = 0` is rejected
as `InvalidModel` (the observation relation is not invertible), a prior
`R_est ≤ 0` or `P_post ≤ 0` is rejected as `NonPositivePrior`, and any
other configuration builds the model and the initial filter state. -/
def mkFilter (F H Q x_post P_post R_est L : ℚ) :
    Except ConstructionError (Params × FilterState) :=
  if H = 0 then .error .InvalidModel
  else if R_est ≤ 0 ∨ P_post ≤ 0 then .error .NonPositivePrior
  else .ok (⟨F, H, Q⟩, ⟨x_post, P_post, R_est, L⟩)

/-- C9: construction rejects exactly the invalid configurations — `H = 0`
as `InvalidModel`, and (with `H ≠ 0`) a non-positive `R_est` or `P_post`
prior as `NonPositivePrior`. -/
theorem mkFilter_rejects (F H Q x P R L : ℚ) :
    (mkFilter F H Q x P R L = .error .InvalidModel ↔ H = 0) ∧
      (mkFilter F H Q x P R L = .error .NonPositivePrior ↔
        (H ≠ 0 ∧ (R ≤ 0 ∨ P ≤ 0))) := by
  constructor
  · unfold mkFilter
    split_ifs with h1 h2 <;> simp_all
  · unfold mkFilter
    split_ifs with h1 h2 <;> simp_all

end AKF
